import Mathlib

/-!
# Verification of the timelake catalog store and dataset lifecycle engine

Shallow embedding of `timelake` (catalog.py, models.py, preprocessor.py and the
dataset lifecycle engine).  Catalog entries are pydantic models persisted as rows
of a transactional table with columns `id`, `name`, `entry_type`, `created_at`,
`updated_at` and a JSON-serialized `properties` column.  JSON serialization of
the payload dictionary (`json.dumps` / `json.loads`) is an external faithful
encoding of string-keyed dictionaries, so the `properties` column is modelled as
the payload dictionary itself (an association list).  Python timestamps are
modelled as naturals.
-/

namespace Timelake

/-- A JSON-serializable value as appearing in an entry payload:
strings, datetimes/numbers, lists of column names, string-to-string maps, null. -/
inductive Value where
  | vStr : String → Value
  | vNat : Nat → Value
  | vList : List String → Value
  | vMap : List (String × String) → Value
  | vNull : Value
deriving DecidableEq, Repr

/-- A Python dictionary with string keys, as an association list
(insertion-ordered, keys unique in all dictionaries the code builds). -/
abbrev Props : Type := List (String × Value)

/-- Dictionary lookup (`d.get(k)` / `k in d`): first binding of the key wins. -/
def pLookup : Props → String → Option Value
  | [], _ => none
  | (k, v) :: rest, key => if k = key then some v else pLookup rest key

/-- Returns `true` when the dictionary binds none of the given keys. -/
def noKeys (p : Props) (ks : List String) : Bool :=
  (p : List (String × Value)).all (fun kv => !(ks.contains kv.1))

/-- Python `dict` merge (`{**a, **b}` / `a.update(b)`): keys of `a` keep their
position (values overridden by `b` when present), keys of `b` not in `a` are
appended in `b`'s order. -/
def dictUpdate (a b : Props) : Props :=
  (a : List (String × Value)).map
      (fun kv => match pLookup b kv.1 with
        | some v => (kv.1, v)
        | none => kv)
    ++ (b : List (String × Value)).filter (fun kv => (pLookup a kv.1).isNone)

/-- Pydantic default filling: bind `k` to `v` if the dictionary does not
already bind `k` (models a field with a declared default). -/
def fillDefault (p : Props) (k : String) (v : Value) : Props :=
  if (pLookup p k).isSome then p else p ++ [(k, v)]

/-- The five core columns of the catalog table; `add_entry` pops exactly these
out of the entry dump, everything else goes to the `properties` column. -/
def coreKeys : List String := ["id", "name", "entry_type", "created_at", "updated_at"]

/-- A physical row of the catalog delta table (`TimeLakeCatalogSchema`). -/
structure CatalogRow where
  id : String
  name : String
  entry_type : String
  created_at : Nat
  updated_at : Nat
  /-- The JSON-serialized payload column (serialization modelled as identity). -/
  properties : Props
deriving DecidableEq, Repr

/-- The catalog delta table: a list of rows in table order. -/
abbrev Catalog : Type := List CatalogRow

/-- An in-memory catalog entry (`BaseCatalogEntry` and its variants), identified
with its canonical `model_dump`: the five core fields plus the variant-specific
payload (in pydantic field-declaration order).  Pydantic model equality is
field-wise, which this structure's equality mirrors. -/
structure BaseCatalogEntry where
  id : Option String
  name : String
  entry_type : String
  created_at : Nat
  updated_at : Nat
  /-- The variant-specific fields of the entry (its dump minus the core keys). -/
  payload : Props
deriving DecidableEq, Repr

/-- The closed set of known entry-type discriminators (`CatalogEntryType`). -/
def knownEntryTypes : List String := ["timelake_config", "dataset"]

/-- Payload has key `k` bound to a string (a required pydantic `str` field). -/
def hasStr (p : Props) (k : String) : Bool :=
  match pLookup p k with
  | some (.vStr _) => true
  | _ => false

/-- Payload has key `k` bound to a list of strings (`List[str]` field). -/
def hasList (p : Props) (k : String) : Bool :=
  match pLookup p k with
  | some (.vList _) => true
  | _ => false

/-- Payload has key `k` bound to a string map (`Dict[str, str]` field). -/
def hasMap (p : Props) (k : String) : Bool :=
  match pLookup p k with
  | some (.vMap _) => true
  | _ => false

/-- If key `k` is bound it is a string (an optional `str` field with default). -/
def optStr (p : Props) (k : String) : Bool :=
  match pLookup p k with
  | some (.vStr _) => true
  | none => true
  | _ => false

/-- If key `k` is bound it is a list (an optional `List[str]` field). -/
def optList (p : Props) (k : String) : Bool :=
  match pLookup p k with
  | some (.vList _) => true
  | none => true
  | _ => false

/-- If key `k` is bound it is a map (an optional `Dict` field). -/
def optMap (p : Props) (k : String) : Bool :=
  match pLookup p k with
  | some (.vMap _) => true
  | none => true
  | _ => false

/-- If key `k` is bound it is a string or null (`Optional[str]` field). -/
def optStrNull (p : Props) (k : String) : Bool :=
  match pLookup p k with
  | some (.vStr _) => true
  | some .vNull => true
  | none => true
  | _ => false

/-- Pydantic validation of the payload of a `TimeLakeEntry` (`models.py`):
six required string/list fields, three optional ones with defaults. -/
def validTimeLakePayload (p : Props) : Bool :=
  hasStr p "timestamp_column" && hasStr p "timestamp_partition_column" &&
  hasList p "partition_by" && hasStr p "timelake_id" &&
  hasStr p "timelake_storage" && hasStr p "timelake_preprocessor" &&
  optStr p "timelake_version" && optStr p "inserted_at_column" &&
  optStr p "storage_type"

/-- Defaults of the optional `TimeLakeEntry` fields (`TIMELAKE_VERSION`,
`TimeLakeColumns.INSERTED_AT`, `StorageType.LOCAL`). -/
def timeLakeDefaults (p : Props) : Props :=
  fillDefault (fillDefault (fillDefault p
    "timelake_version" (.vStr "0.0.1"))
    "inserted_at_column" (.vStr "inserted_at"))
    "storage_type" (.vStr "local")

/-- Pydantic validation of the payload of a `DatasetEntry` (`models.py`). -/
def validDatasetPayload (p : Props) : Bool :=
  hasStr p "path" && hasMap p "dataset_schema" &&
  optList p "partition_columns" && optStrNull p "primary_key" &&
  optMap p "properties"

/-- Defaults of the optional `DatasetEntry` fields. -/
def datasetDefaults (p : Props) : Props :=
  fillDefault (fillDefault (fillDefault p
    "partition_columns" (.vList []))
    "primary_key" .vNull)
    "properties" (.vMap [])

/-- Key `k` is bound to a string or to null (a present `Optional[str]` field). -/
def hasStrNull (p : Props) (k : String) : Bool :=
  match pLookup p k with
  | some (.vStr _) => true
  | some .vNull => true
  | _ => false

/-- The payload of a fully-populated `TimeLakeEntry` model instance: every
declared field, defaults included, is present with its declared type (this is
what `model_dump` of any constructed `TimeLakeEntry` yields). -/
def fullTimeLakePayload (p : Props) : Bool :=
  hasStr p "timestamp_column" && hasStr p "timestamp_partition_column" &&
  hasList p "partition_by" && hasStr p "timelake_id" &&
  hasStr p "timelake_storage" && hasStr p "timelake_preprocessor" &&
  hasStr p "timelake_version" && hasStr p "inserted_at_column" &&
  hasStr p "storage_type"

/-- The payload of a fully-populated `DatasetEntry` model instance. -/
def fullDatasetPayload (p : Props) : Bool :=
  hasStr p "path" && hasMap p "dataset_schema" &&
  hasList p "partition_columns" && hasStrNull p "primary_key" &&
  hasMap p "properties"

/-- Extract the `id` core field from merged entry data (`Optional[str]`). -/
def extractId (data : Props) : Except String (Option String) :=
  match pLookup data "id" with
  | some (.vStr s) => .ok (some s)
  | some .vNull => .ok none
  | none => .ok none
  | _ => .error "validation error: id"

/-- Extract a required datetime core field from merged entry data. -/
def extractNat (data : Props) (k : String) : Except String Nat :=
  match pLookup data k with
  | some (.vNat n) => .ok n
  | _ => .error "validation error: datetime"

/-- Extract a required string field from merged entry data. -/
def extractStr (data : Props) (k : String) : Except String String :=
  match pLookup data k with
  | some (.vStr s) => .ok s
  | _ => .error "validation error: str"

/-- The payload of a reconstructed model: the merged entry data minus the five
core keys, order preserved (pydantic stores non-core fields separately). -/
def payloadOf (data : Props) : Props :=
  (data : List (String × Value)).filter (fun kv => !(coreKeys.contains kv.1))

/-- The call `model_class(**entry_data)` for the model selected by `ENTRY_TYPE_TO_MODEL`:
validates the data against the variant selected by the dispatch type `t`
(falling back to `BaseCatalogEntry` for an unknown `t`), fills declared
defaults, and forces the variant's `entry_type` as the variants' `__init__` do.
Errors model pydantic `ValidationError`. -/
def mkModel (t : String) (data : Props) : Except String BaseCatalogEntry := do
  let i ← extractId data
  let ca ← extractNat data "created_at"
  let ua ← extractNat data "updated_at"
  let p := payloadOf data
  if t = "timelake_config" then
    let n := match pLookup data "name" with
      | some (.vStr s) => Except.ok s
      | none => Except.ok "timelake"
      | _ => Except.error "validation error: name"
    let n ← n
    if validTimeLakePayload p then
      .ok ⟨i, n, "timelake_config", ca, ua, timeLakeDefaults p⟩
    else
      .error "validation error: timelake_config"
  else if t = "dataset" then
    let n ← extractStr data "name"
    if validDatasetPayload p then
      .ok ⟨i, n, "dataset", ca, ua, datasetDefaults p⟩
    else
      .error "validation error: dataset"
  else
    let n ← extractStr data "name"
    let et ← extractStr data "entry_type"
    .ok ⟨i, n, et, ca, ua, p⟩

/-- Source `TimeLakeCatalog._parse_entry`: rebuild the entry from a catalog row by
dispatching on the row's `entry_type`; the merged data dictionary lists the
five core columns first, then the deserialized `properties` (which, as in the
source's `{**core, **properties}` construction, override core keys). -/
def parse_entry (row : CatalogRow) : Except String BaseCatalogEntry :=
  let data := dictUpdate
    [("id", .vStr row.id), ("name", .vStr row.name),
     ("entry_type", .vStr row.entry_type),
     ("created_at", .vNat row.created_at), ("updated_at", .vNat row.updated_at)]
    row.properties
  mkModel row.entry_type data

/-- An in-memory entry value that a constructed pydantic model instance can
actually be: its payload binds no core key (the variants' declared fields never
shadow the core fields, and `model_dump` pops the core keys), and when the
entry type is one of the known variants the payload is that variant's full
dump. -/
def wellFormedEntry (e : BaseCatalogEntry) : Bool :=
  noKeys e.payload coreKeys &&
  (if e.entry_type = "timelake_config" then fullTimeLakePayload e.payload
   else if e.entry_type = "dataset" then fullDatasetPayload e.payload
   else true)

/-- The catalog row written for an entry whose resolved id is `eid`
(`add_entry`'s `{**core_fields, "properties": json.dumps(entry_dict)}`). -/
def rowOfEntry (e : BaseCatalogEntry) (eid : String) : CatalogRow :=
  ⟨eid, e.name, e.entry_type, e.created_at, e.updated_at, e.payload⟩

/-- Source `TimeLakeCatalog.add_entry`: assign `freshId` (a fresh uuid4) when the
entry has no id, split the dump into core columns and the payload column,
append the row and rewrite the table.  Returns the resolved id and the new
catalog state. -/
def add_entry (c : Catalog) (e : BaseCatalogEntry) (freshId : String) : String × Catalog :=
  let eid := e.id.getD freshId
  (eid, c ++ [rowOfEntry e eid])

/-- Source `TimeLakeCatalog.get_entry`: filter the table by id, return `none` when no
row matches, otherwise parse the first matching row (`result.row(0)`); a parse
failure raises, modelled by the inner `Except`. -/
def get_entry (c : Catalog) (eid : String) : Option (Except String BaseCatalogEntry) :=
  match (c : List CatalogRow).filter (fun r => r.id == eid) with
  | [] => none
  | r :: _ => some (parse_entry r)

/-- Source `TimeLakeCatalog.get_entry_by_name`: same scan keyed on `(name, entry_type)`. -/
def get_entry_by_name (c : Catalog) (name entry_type : String) :
    Option (Except String BaseCatalogEntry) :=
  match (c : List CatalogRow).filter
      (fun r => r.name == name && r.entry_type == entry_type) with
  | [] => none
  | r :: _ => some (parse_entry r)

/-- Parse every row in order, propagating the first failure
(the source's list comprehension raises at the first bad row). -/
def parseAll : List CatalogRow → Except String (List BaseCatalogEntry)
  | [] => .ok []
  | r :: rs => do
    let e ← parse_entry r
    let es ← parseAll rs
    .ok (e :: es)

/-- Source `TimeLakeCatalog.list_entries`: optionally filter by entry type (the source's
`if entry_type:` treats the empty string like `None`), then parse each row. -/
def list_entries (c : Catalog) (entry_type : Option String) :
    Except String (List BaseCatalogEntry) :=
  let rows := match entry_type with
    | none => (c : List CatalogRow)
    | some t => if t = "" then c else (c : List CatalogRow).filter (fun r => r.entry_type == t)
  parseAll rows

/-- Source `TimeLakeCatalog.update_entry`: read the current entry (returning `false`
when absent), merge the partial properties into its payload dump, then perform
a targeted merge keyed on `s.id = t.id` updating the source columns
(`id`, `updated_at`, `properties`) of every matched row. -/
def update_entry (c : Catalog) (eid : String) (properties : Props) (now : Nat) :
    Except String (Bool × Catalog) :=
  match get_entry c eid with
  | none => .ok (false, c)
  | some (.error m) => .error m
  | some (.ok cur) =>
    let merged := dictUpdate cur.payload properties
    let c2 : Catalog := (c : List CatalogRow).map
      (fun r => if r.id = eid then { r with updated_at := now, properties := merged } else r)
    .ok (true, c2)

/-- Source `TimeLakeCatalog.delete_entry`: filter the entry out in memory; if nothing
was removed return `false`, otherwise rewrite the whole table. -/
def delete_entry (c : Catalog) (eid : String) : Bool × Catalog :=
  let filtered : Catalog := (c : List CatalogRow).filter (fun r => !(r.id == eid))
  if (filtered : List CatalogRow).length = (c : List CatalogRow).length then
    (false, c)
  else
    (true, filtered)

/-- Source `TimeLakePreprocessor.get_timestamp_partition_column`: the derived
day-granularity partition column name. -/
def get_timestamp_partition_column (timestamp_column : String) : String :=
  timestamp_column ++ "_day"

/-- Source `TimeLakePreprocessor.get_default_partitions`. -/
def get_default_partitions (timestamp_column : String) : List String :=
  [get_timestamp_partition_column timestamp_column]

/-- Source `TimeLakePreprocessor.validate_partitions` over a table's column list:
raises when the partition list is empty, a column is missing, or duplicated. -/
def validate_partitions (columns : List String) (partition_by : List String) :
    Except String Unit :=
  if partition_by = [] then .error "Partition columns are empty."
  else if partition_by.any (fun col => !(columns.contains col)) then
    .error "Partition column is missing."
  else if partition_by.dedup.length ≠ partition_by.length then
    .error "Partition columns must be unique."
  else .ok ()

/-- The catalog entry built by `get_or_create_timelake_config` when no config
exists (a `TimeLakeEntry` in pydantic field-declaration order; `storageName`
and `preprocName` are the class names of the storage and preprocessor, and the
source passes the storage class name for `storage_type` as well). -/
def mkTimeLakeConfig (timestamp_column storageName preprocName freshUuid lakeName : String)
    (now : Nat) : BaseCatalogEntry :=
  { id := none
    name := lakeName
    entry_type := "timelake_config"
    created_at := now
    updated_at := now
    payload :=
      [("timestamp_column", .vStr timestamp_column),
       ("timestamp_partition_column", .vStr (get_timestamp_partition_column timestamp_column)),
       ("partition_by", .vList (get_default_partitions timestamp_column)),
       ("timelake_id", .vStr freshUuid),
       ("timelake_storage", .vStr storageName),
       ("timelake_preprocessor", .vStr preprocName),
       ("timelake_version", .vStr "0.0.1"),
       ("inserted_at_column", .vStr "inserted_at"),
       ("storage_type", .vStr storageName)] }

/-- Source `TimeLakeCatalog.get_or_create_timelake_config`: list existing config
entries and return the first one unchanged when present; otherwise construct a
new `TimeLakeEntry` and add it.  `freshUuid` models the generated
`timelake_id`, `freshId` the id assigned by `add_entry`, `now` the creation
time, `lakeName` the basename of the catalog path. -/
def get_or_create_timelake_config (c : Catalog)
    (timestamp_column storageName preprocName freshUuid freshId lakeName : String)
    (now : Nat) : Except String (Option String × BaseCatalogEntry × Catalog) := do
  let configs ← list_entries c (some "timelake_config")
  match configs with
  | e :: _ => .ok (e.id, e, c)
  | [] =>
    let config := mkTimeLakeConfig timestamp_column storageName preprocName freshUuid lakeName now
    let r := add_entry c config freshId
    .ok (some r.1, { config with id := some r.1 }, r.2)

/-- Source `TimeLakeCatalog.create_dataset`: default the partition columns to `[]`
when not provided (`if not partition_columns`), build a `DatasetEntry` whose
schema pairs the table's columns with their dtypes, add it to the catalog, and
return it (the physical write of the table is a separate, non-catalog step).
No validation of the partition columns is performed. -/
def create_dataset (c : Catalog) (name path : String)
    (dfColumns : List String) (dfTypes : List String)
    (partition_columns : Option (List String)) (primary_key : Option String)
    (freshId : String) (now : Nat) : BaseCatalogEntry × Catalog :=
  let pcs := partition_columns.getD []
  let entry : BaseCatalogEntry :=
    { id := none
      name := name
      entry_type := "dataset"
      created_at := now
      updated_at := now
      payload :=
        [("path", .vStr path),
         ("dataset_schema", .vMap (dfColumns.zip dfTypes)),
         ("partition_columns", .vList pcs),
         ("primary_key", match primary_key with | some s => .vStr s | none => .vNull),
         ("properties", .vMap [])] }
  let r := add_entry c entry freshId
  ({ entry with id := some r.1 }, r.2)

/-- The number of rows of the catalog table whose discriminator is the config
entry type (the rows `get_or_create_timelake_config` lists). -/
def configCount (c : Catalog) : Nat :=
  ((c : List CatalogRow).filter (fun r => r.entry_type == "timelake_config")).length

/-- The filesystem state at a catalog path: `some c` when a catalog delta table
holding `c` exists there, `none` otherwise. -/
abbrev CatalogFs : Type := Option Catalog

/-- Source `TimeLakeCatalog.create_catalog` / `_ensure_catalog_exists`: a no-op when a
catalog table already exists at the path, otherwise write an empty table. -/
def create_catalog (fs : CatalogFs) : CatalogFs :=
  match fs with
  | some c => some c
  | none => some ([] : Catalog)

/-- Source `TimeLakeCatalog.open_catalog`: raise a not-found error when no catalog
table exists at the path. -/
def open_catalog (fs : CatalogFs) : Except String Catalog :=
  match fs with
  | some c => .ok c
  | none => .error "No catalog found"

/-- Modelled from the spec: the preprocessor's `resolve_partitions` is not part
of `src/` (only `get_default_partitions` and `validate_partitions` are);
per the spec it "always places the derived day-partition column first, then
appends user-supplied partition columns that are not already present
(order-preserving de-duplication)". -/
def resolve_partitions (timestamp_column : String) (user_partitions : List String) :
    List String :=
  user_partitions.foldl
    (fun acc c => if acc.contains c then acc else acc ++ [c])
    (get_default_partitions timestamp_column)

/-- De-duplication written directly from the spec's words, for comparison with
`resolve_partitions`: keep each column not already seen, in order. -/
def dedupKeep (seen : List String) : List String → List String
  | [] => []
  | c :: rest =>
    if seen.contains c then dedupKeep seen rest
    else c :: dedupKeep (seen ++ [c]) rest

/-- A row of a dataset's physical table: column name to cell value (cell
values, including ISO-formatted dates and day-partition strings, as strings). -/
abbrev TableRow : Type := List (String × String)

/-- Cell lookup in a physical table row. -/
def cellLookup : TableRow → String → Option String
  | [], _ => none
  | (k, v) :: rest, key => if k = key then some v else cellLookup rest key

/-- The physical tables of the store, keyed by path. -/
abbrev TableStore : Type := List (String × List TableRow)

/-- Look up the physical table at a path. -/
def tableAt : TableStore → String → Option (List TableRow)
  | [], _ => none
  | (p, rows) :: rest, path => if p = path then some rows else tableAt rest path

/-- Replace the physical table at a path. -/
def setTableAt : TableStore → String → List TableRow → TableStore
  | [], _, _ => []
  | (p, rows) :: rest, path, newRows =>
    if p = path then (p, newRows) :: rest else (p, rows) :: setTableAt rest path newRows

/-- The dataset lifecycle engine's state: the catalog, the physical tables, and
the store-wide configuration columns (from the `ConfigEntry`): the raw timestamp
column and the derived day-partition column. -/
structure TimeLake where
  catalog : Catalog
  tables : TableStore
  timestamp_column : String
  timestamp_partition_column : String

/-- The inclusive day-partition range filter `[start_date, end_date]` built by
`read`: a row passes when its day-partition cell lies between the bounds
(bounds absent means unbounded on that side; ISO `YYYY-MM-DD` day strings
compare like dates under the lexicographic string order). -/
def inDayRange (partCol : String) (start_date end_date : Option String) (r : TableRow) : Bool :=
  match cellLookup r partCol with
  | some d =>
    (match start_date with | none => true | some s => s ≤ d) &&
    (match end_date with | none => true | some e => d ≤ e)
  | none => false

/-- Modelled from the spec: the dataset-lifecycle `TimeLake.read(name,
start_date?, end_date?)` is not part of `src/` (the two `core.py` files under
`src/` are older variants without name-based dataset reads; the tests call this
API).  Per the spec it resolves the dataset by name (erroring when missing),
opens its physical table, and applies the inclusive range filter
`[start_date, end_date]` against the day-partition column — not the raw
timestamp column. -/
def TimeLake.read (lake : TimeLake) (dataset : String)
    (start_date end_date : Option String) : Except String (List TableRow) := do
  let entry ← match get_entry_by_name lake.catalog dataset "dataset" with
    | none => Except.error "Dataset not found"
    | some r => r
  let path ← match pLookup entry.payload "path" with
    | some (.vStr p) => Except.ok p
    | _ => Except.error "Dataset entry has no path"
  let rows ← match tableAt lake.tables path with
    | some rs => Except.ok rs
    | none => Except.error "Physical table not found"
  Except.ok (rows.filter
    (inDayRange lake.timestamp_partition_column start_date end_date))

/-- Modelled from the spec: the merge performed by the dataset-lifecycle
`upsert` is not part of `src/` (only its tests are).  Per the spec it is keyed
on timestamp-column equality only: a target row matched by a source row is
fully overwritten by that source row (in place), and source rows matching no
target row are inserted. -/
def mergeByTimestamp (tsCol : String) (target source : List TableRow) : List TableRow :=
  target.map (fun t =>
    match source.find? (fun s => cellLookup s tsCol == cellLookup t tsCol) with
    | some s => s
    | none => t)
  ++ source.filter (fun s =>
      !(target.any (fun t => cellLookup t tsCol == cellLookup s tsCol)))

/-- Modelled from the spec: the dataset-lifecycle `TimeLake.upsert(table,
name)` is not part of `src/` (only its tests are).  It resolves the dataset by
name and merges the (preprocessed) source table into the dataset's physical
table keyed on timestamp-column equality; the preprocessing stage (partition
enrichment, insertion stamping) is modelled separately and `df` stands for its
output. -/
def TimeLake.upsert (lake : TimeLake) (df : List TableRow) (dataset : String) :
    Except String TimeLake := do
  let entry ← match get_entry_by_name lake.catalog dataset "dataset" with
    | none => Except.error "Dataset not found"
    | some r => r
  let path ← match pLookup entry.payload "path" with
    | some (.vStr p) => Except.ok p
    | _ => Except.error "Dataset entry has no path"
  let target ← match tableAt lake.tables path with
    | some rs => Except.ok rs
    | none => Except.error "Physical table not found"
  let merged := mergeByTimestamp lake.timestamp_column target df
  Except.ok { lake with tables := setTableAt lake.tables path merged }

theorem pLookup_eq_none {p : Props} {k : String} (h : ∀ kv ∈ p, kv.1 ≠ k) :
    pLookup p k = none := by
  induction p with
  | nil => rfl
  | cons kv rest ih =>
    have hk : kv.1 ≠ k := h kv (List.mem_cons_self kv rest)
    simp only [pLookup, if_neg hk]
    exact ih (fun kv' h' => h kv' (List.mem_cons_of_mem kv h'))

theorem noKeys_not_mem {p : Props} {ks : List String} (h : noKeys p ks = true) :
    ∀ kv ∈ p, kv.1 ∉ ks := by
  intro kv hmem
  have := (List.all_eq_true.mp h) kv hmem
  simpa using this

theorem pLookup_eq_none_of_noKeys {p : Props} {ks : List String} {k : String}
    (h : noKeys p ks = true) (hk : k ∈ ks) : pLookup p k = none := by
  refine pLookup_eq_none (fun kv hmem heq => ?_)
  exact noKeys_not_mem h kv hmem (heq ▸ hk)

theorem map_override_eq_self (a b : Props) (h : ∀ kv ∈ a, pLookup b kv.1 = none) :
    a.map (fun kv => match pLookup b kv.1 with
      | some v => (kv.1, v)
      | none => kv) = a := by
  induction a with
  | nil => rfl
  | cons kv rest ih =>
    simp only [List.map_cons, h kv (List.mem_cons_self kv rest)]
    rw [ih (fun kv' h' => h kv' (List.mem_cons_of_mem kv h'))]

theorem filter_notin_eq_self (a b : Props) (h : ∀ kv ∈ b, pLookup a kv.1 = none) :
    b.filter (fun kv => (pLookup a kv.1).isNone) = b := by
  refine List.filter_eq_self.mpr (fun kv hmem => ?_)
  simp [h kv hmem]

/-- When the keys of `a` and `b` are disjoint, the Python dictionary merge
`{**a, **b}` is plain concatenation. -/
theorem dictUpdate_disjoint (a b : Props)
    (ha : ∀ kv ∈ a, pLookup b kv.1 = none) (hb : ∀ kv ∈ b, pLookup a kv.1 = none) :
    dictUpdate a b = a ++ b := by
  unfold dictUpdate
  rw [map_override_eq_self a b ha, filter_notin_eq_self a b hb]

theorem hasStr_isSome {p : Props} {k : String} (h : hasStr p k = true) :
    (pLookup p k).isSome = true := by
  unfold hasStr at h
  cases hp : pLookup p k with
  | none => rw [hp] at h; exact absurd h (by simp)
  | some v => rfl

theorem hasList_isSome {p : Props} {k : String} (h : hasList p k = true) :
    (pLookup p k).isSome = true := by
  unfold hasList at h
  cases hp : pLookup p k with
  | none => rw [hp] at h; exact absurd h (by simp)
  | some v => rfl

theorem hasMap_isSome {p : Props} {k : String} (h : hasMap p k = true) :
    (pLookup p k).isSome = true := by
  unfold hasMap at h
  cases hp : pLookup p k with
  | none => rw [hp] at h; exact absurd h (by simp)
  | some v => rfl

theorem hasStrNull_isSome {p : Props} {k : String} (h : hasStrNull p k = true) :
    (pLookup p k).isSome = true := by
  unfold hasStrNull at h
  cases hp : pLookup p k with
  | none => rw [hp] at h; exact absurd h (by simp)
  | some v => rfl

theorem optStr_of_hasStr {p : Props} {k : String} (h : hasStr p k = true) :
    optStr p k = true := by
  unfold hasStr at h
  unfold optStr
  cases hp : pLookup p k with
  | none => rfl
  | some v => rw [hp] at h; cases v <;> simp_all

theorem optList_of_hasList {p : Props} {k : String} (h : hasList p k = true) :
    optList p k = true := by
  unfold hasList at h
  unfold optList
  cases hp : pLookup p k with
  | none => rfl
  | some v => rw [hp] at h; cases v <;> simp_all

theorem optMap_of_hasMap {p : Props} {k : String} (h : hasMap p k = true) :
    optMap p k = true := by
  unfold hasMap at h
  unfold optMap
  cases hp : pLookup p k with
  | none => rfl
  | some v => rw [hp] at h; cases v <;> simp_all

theorem optStrNull_of_hasStrNull {p : Props} {k : String} (h : hasStrNull p k = true) :
    optStrNull p k = true := by
  unfold hasStrNull at h
  unfold optStrNull
  cases hp : pLookup p k with
  | none => rfl
  | some v => rw [hp] at h; cases v <;> simp_all

theorem fillDefault_of_isSome {p : Props} {k : String} {v : Value}
    (h : (pLookup p k).isSome = true) : fillDefault p k v = p := by
  unfold fillDefault
  rw [if_pos h]

theorem pLookup_append (a b : Props) (k : String) :
    pLookup (a ++ b) k =
      match pLookup a k with
      | some v => some v
      | none => pLookup b k := by
  induction a with
  | nil => rfl
  | cons kv rest ih =>
    by_cases h : kv.1 = k
    · simp [pLookup, h]
    · simpa [pLookup, h] using ih

theorem pLookup_map_override (a b : Props) (k : String) :
    pLookup ((a : List (String × Value)).map
        (fun kv => match pLookup b kv.1 with
          | some v => (kv.1, v)
          | none => kv)) k =
      match pLookup a k with
      | none => none
      | some w =>
        some (match pLookup b k with
          | some v => v
          | none => w) := by
  induction a with
  | nil => rfl
  | cons kv rest ih =>
    by_cases h : kv.1 = k
    · subst h
      cases hb : pLookup b kv.1 <;> simp [pLookup, hb]
    · cases hb : pLookup b kv.1 <;> simpa [pLookup, h, hb] using ih

theorem pLookup_filter_isNone (a b : Props) (k : String) :
    pLookup ((b : List (String × Value)).filter
        (fun kv => (pLookup a kv.1).isNone)) k =
      match pLookup a k with
      | none => pLookup b k
      | some _ => none := by
  induction b with
  | nil => cases pLookup a k <;> rfl
  | cons kv rest ih =>
    by_cases h : kv.1 = k
    · subst h
      cases ha : pLookup a kv.1 <;> simp [List.filter_cons, pLookup, ha, ih]
    · cases ha : pLookup a kv.1 <;>
        cases hp : pLookup a k <;>
        simp_all [List.filter_cons, pLookup, h, ha, hp, ih]

/-- Python dictionary-merge lookup: a key bound by `b` gets `b`'s value,
anything else keeps `a`'s value. -/
theorem pLookup_dictUpdate (a b : Props) (k : String) :
    pLookup (dictUpdate a b) k =
      match pLookup b k with
      | some v => some v
      | none => pLookup a k := by
  unfold dictUpdate
  rw [pLookup_append, pLookup_map_override, pLookup_filter_isNone]
  cases ha : pLookup a k <;> cases hb : pLookup b k <;> simp

theorem pLookup_dictUpdate_self (a : Props) (k : String) (v : Value) :
    pLookup (dictUpdate a [(k, v)]) k = some v := by
  rw [pLookup_dictUpdate]
  simp [pLookup]

theorem pLookup_dictUpdate_ne (a : Props) (k k' : String) (v : Value) (h : k' ≠ k) :
    pLookup (dictUpdate a [(k, v)]) k' = pLookup a k' := by
  rw [pLookup_dictUpdate]
  have hk : ¬(k = k') := fun hh => h hh.symm
  simp [pLookup, hk]

/-- Parsing the row that `add_entry` writes for a well-formed entry
reconstructs the entry, with the resolved id: the variant-dispatch,
core-field/payload split and default filling round-trip. -/
theorem parse_rowOfEntry (e : BaseCatalogEntry) (eid : String)
    (hwf : wellFormedEntry e = true) :
    parse_entry (rowOfEntry e eid) = .ok { e with id := some eid } := by
  simp only [wellFormedEntry, Bool.and_eq_true] at hwf
  obtain ⟨hno, hvar⟩ := hwf
  have hnone : ∀ k ∈ coreKeys, pLookup e.payload k = none :=
    fun k hk => pLookup_eq_none_of_noKeys hno hk
  have hcore : ∀ kv ∈ e.payload, kv.1 ∉ coreKeys := noKeys_not_mem hno
  unfold parse_entry rowOfEntry
  simp only
  rw [dictUpdate_disjoint]
  · -- the merged data is the core columns followed by the payload
    have h1 : ∀ kv ∈ e.payload, (!(coreKeys.contains kv.1)) = true := by
      intro kv hmem
      simpa using hcore kv hmem
    have hpayl : payloadOf
        (("id", Value.vStr eid) :: ("name", Value.vStr e.name) ::
          ("entry_type", Value.vStr e.entry_type) ::
          ("created_at", Value.vNat e.created_at) ::
          ("updated_at", Value.vNat e.updated_at) :: e.payload) = e.payload := by
      unfold payloadOf
      simp only [List.filter_cons, coreKeys]
      simp only [List.contains_cons, List.contains_nil, String.reduceEq, Bool.or_false,
        Bool.or_true, Bool.true_or, Bool.false_or, Bool.not_true, Bool.false_eq_true,
        reduceIte, Bool.not_false]
      refine List.filter_eq_self.mpr (fun a ha => ?_)
      simpa [coreKeys] using h1 a ha
    unfold mkModel
    simp only [bind, Except.bind, extractId, extractNat, extractStr, pLookup,
      List.cons_append, List.nil_append, String.reduceEq, reduceIte, hpayl]
    by_cases ht : e.entry_type = "timelake_config"
    · rw [if_pos ht]
      rw [ht, if_pos rfl] at hvar
      have h9 := hvar
      unfold fullTimeLakePayload at h9
      simp only [Bool.and_eq_true] at h9
      obtain ⟨⟨⟨⟨⟨⟨⟨⟨h1, h2⟩, h3⟩, h4⟩, h5⟩, h6⟩, h7⟩, h8⟩, h9'⟩ := h9
      have hval : validTimeLakePayload e.payload = true := by
        unfold validTimeLakePayload
        simp only [Bool.and_eq_true]
        exact ⟨⟨⟨⟨⟨⟨⟨⟨h1, h2⟩, h3⟩, h4⟩, h5⟩, h6⟩, optStr_of_hasStr h7⟩,
          optStr_of_hasStr h8⟩, optStr_of_hasStr h9'⟩
      rw [if_pos hval]
      have hdef : timeLakeDefaults e.payload = e.payload := by
        unfold timeLakeDefaults
        rw [fillDefault_of_isSome (hasStr_isSome h7),
            fillDefault_of_isSome (hasStr_isSome h8),
            fillDefault_of_isSome (hasStr_isSome h9')]
      rw [hdef, ht]
    · rw [if_neg ht]
      by_cases hd : e.entry_type = "dataset"
      · rw [if_pos hd]
        rw [hd] at hvar
        simp only [String.reduceEq, reduceIte] at hvar
        have h5 := hvar
        unfold fullDatasetPayload at h5
        simp only [Bool.and_eq_true] at h5
        obtain ⟨⟨⟨⟨h1, h2⟩, h3⟩, h4⟩, h5'⟩ := h5
        have hval : validDatasetPayload e.payload = true := by
          unfold validDatasetPayload
          simp only [Bool.and_eq_true]
          exact ⟨⟨⟨⟨h1, h2⟩, optList_of_hasList h3⟩, optStrNull_of_hasStrNull h4⟩,
            optMap_of_hasMap h5'⟩
        rw [if_pos hval]
        have hdef : datasetDefaults e.payload = e.payload := by
          unfold datasetDefaults
          rw [fillDefault_of_isSome (hasList_isSome h3),
              fillDefault_of_isSome (hasStrNull_isSome h4),
              fillDefault_of_isSome (hasMap_isSome h5')]
        rw [hdef, hd]
      · rw [if_neg hd]
  · -- the payload binds no core-column key
    intro kv hmem
    simp only [List.mem_cons, List.not_mem_nil, or_false] at hmem
    rcases hmem with h | h | h | h | h <;> subst h <;>
      exact hnone _ (by simp [coreKeys])
  · -- the core columns bind no payload key
    intro kv hmem
    refine pLookup_eq_none (fun kv' h' heq => ?_)
    have hnot : kv.1 ∉ coreKeys := hcore kv hmem
    refine hnot ?_
    rw [← heq]
    simp only [List.mem_cons, List.not_mem_nil, or_false] at h'
    rcases h' with h | h | h | h | h <;> subst h <;> simp [coreKeys]

theorem filter_id_eq_nil {c : Catalog} {eid : String} (h : ∀ r ∈ c, r.id ≠ eid) :
    (c : List CatalogRow).filter (fun r => r.id == eid) = [] :=
  List.filter_eq_nil_iff.mpr (fun r hr => by simpa using h r hr)

/-- Applying `get_entry` to a catalog whose first id-match is an appended fresh row
parses exactly that row. -/
theorem get_entry_append_fresh (c : Catalog) (row : CatalogRow) (eid : String)
    (hrow : row.id = eid) (hfresh : ∀ r ∈ c, r.id ≠ eid) :
    get_entry (c ++ [row]) eid = some (parse_entry row) := by
  unfold get_entry
  rw [List.filter_append, filter_id_eq_nil hfresh]
  simp [hrow]

/-- A row with an unrecognized discriminator and a core-key-free payload always
parses, via the `BaseCatalogEntry` fallback of `ENTRY_TYPE_TO_MODEL.get`. -/
theorem parse_entry_unknown_type (r : CatalogRow)
    (ht : r.entry_type ∉ knownEntryTypes)
    (hnk : noKeys r.properties coreKeys = true) :
    parse_entry r =
      .ok ⟨some r.id, r.name, r.entry_type, r.created_at, r.updated_at, r.properties⟩ := by
  have h1 : r.entry_type ≠ "timelake_config" := by
    intro h; exact ht (by simp [knownEntryTypes, h])
  have h2 : r.entry_type ≠ "dataset" := by
    intro h; exact ht (by simp [knownEntryTypes, h])
  have hwf : wellFormedEntry
      ⟨none, r.name, r.entry_type, r.created_at, r.updated_at, r.properties⟩ = true := by
    unfold wellFormedEntry
    simp only [hnk, Bool.true_and, if_neg h1, if_neg h2]
  have := parse_rowOfEntry
    ⟨none, r.name, r.entry_type, r.created_at, r.updated_at, r.properties⟩ r.id hwf
  simpa [rowOfEntry] using this

theorem parseAll_ok_nil {rows : List CatalogRow}
    (h : parseAll rows = .ok []) : rows = [] := by
  cases rows with
  | nil => rfl
  | cons r rs =>
    exfalso
    unfold parseAll at h
    cases hp : parse_entry r with
    | error m => rw [hp] at h; exact absurd h (by simp [bind, Except.bind])
    | ok e =>
      rw [hp] at h
      cases hq : parseAll rs with
      | error m => rw [hq] at h; exact absurd h (by simp [bind, Except.bind])
      | ok es => rw [hq] at h; exact absurd h (by simp [bind, Except.bind])

theorem parseAll_ok_cons {rows : List CatalogRow} {e : BaseCatalogEntry}
    {es : List BaseCatalogEntry} (h : parseAll rows = .ok (e :: es)) :
    ∃ r rs, rows = r :: rs ∧ parse_entry r = .ok e ∧ parseAll rs = .ok es := by
  cases rows with
  | nil => exact absurd h (by simp [parseAll])
  | cons r rs =>
    refine ⟨r, rs, rfl, ?_⟩
    unfold parseAll at h
    cases hp : parse_entry r with
    | error m => rw [hp] at h; exact absurd h (by simp [bind, Except.bind])
    | ok e' =>
      rw [hp] at h
      cases hq : parseAll rs with
      | error m => rw [hq] at h; exact absurd h (by simp [bind, Except.bind])
      | ok es' =>
        rw [hq] at h
        simp only [bind, Except.bind, Except.ok.injEq, List.cons.injEq] at h
        exact ⟨congrArg Except.ok h.1, congrArg Except.ok h.2⟩

theorem parseAll_ok_of_all {rows : List CatalogRow}
    (h : ∀ r ∈ rows, ∃ e, parse_entry r = .ok e) :
    ∃ l, parseAll rows = .ok l := by
  induction rows with
  | nil => exact ⟨[], rfl⟩
  | cons r rs ih =>
    obtain ⟨e, he⟩ := h r (List.mem_cons_self r rs)
    obtain ⟨l, hl⟩ := ih (fun r' hr' => h r' (List.mem_cons_of_mem r hr'))
    exact ⟨e :: l, by simp [parseAll, he, hl, bind, Except.bind]⟩

theorem get_entry_eq_head (c : Catalog) (eid : String) :
    get_entry c eid =
      ((c : List CatalogRow).filter (fun r => r.id == eid)).head?.map parse_entry := by
  unfold get_entry
  cases (c : List CatalogRow).filter (fun r => r.id == eid) <;> rfl

theorem get_entry_by_name_eq_head (c : Catalog) (n t : String) :
    get_entry_by_name c n t =
      ((c : List CatalogRow).filter
        (fun r => r.name == n && r.entry_type == t)).head?.map parse_entry := by
  unfold get_entry_by_name
  cases (c : List CatalogRow).filter (fun r => r.name == n && r.entry_type == t) <;> rfl

theorem head?_mem {α : Type} {l : List α} {a : α} (h : l.head? = some a) : a ∈ l := by
  cases l with
  | nil => exact absurd h (by simp)
  | cons x xs =>
    have hx : x = a := by simpa using h
    exact hx ▸ List.mem_cons_self x xs

theorem foldl_dedup_eq (user : List String) :
    ∀ acc : List String,
      user.foldl (fun acc c => if acc.contains c then acc else acc ++ [c]) acc =
        acc ++ dedupKeep acc user := by
  induction user with
  | nil => intro acc; simp [dedupKeep]
  | cons c rest ih =>
    intro acc
    simp only [List.foldl_cons]
    unfold dedupKeep
    by_cases h : acc.contains c = true
    · rw [if_pos h, if_pos h, ih]
    · rw [if_neg h, if_neg h, ih, List.append_assoc]
      rfl

/-- C1: an entry added via `add_entry` is returned by a subsequent `get_entry`
at the id `add_entry` returned, equal in all fields to the added entry carrying
that id — the variant-specific fields survive the serialize-into-properties /
parse-back round trip.  Hypotheses: the entry is a well-formed model instance
and the resolved id (the fresh uuid4 when the entry carries none) does not
already occur in the catalog, which is how the source keeps ids unique. -/
theorem add_entry_get_entry_round_trip (c : Catalog) (e : BaseCatalogEntry) (freshId : String)
    (hwf : wellFormedEntry e = true)
    (hfresh : ∀ r ∈ c, r.id ≠ e.id.getD freshId) :
    get_entry (add_entry c e freshId).2 (add_entry c e freshId).1 =
      some (.ok { e with id := some (add_entry c e freshId).1 }) := by
  unfold add_entry
  simp only
  rw [get_entry_append_fresh c (rowOfEntry e (e.id.getD freshId)) (e.id.getD freshId) rfl hfresh]
  rw [parse_rowOfEntry e _ hwf]

/-- Witness for C1 at a concrete config entry and fresh id. -/
theorem add_entry_get_entry_round_trip_witness :
    get_entry (add_entry [] (mkTimeLakeConfig "date" "S3Store" "Prep" "u1" "lake" 7) "fid").2
        (add_entry [] (mkTimeLakeConfig "date" "S3Store" "Prep" "u1" "lake" 7) "fid").1 =
      some (.ok { mkTimeLakeConfig "date" "S3Store" "Prep" "u1" "lake" 7 with id := some "fid" }) :=
  add_entry_get_entry_round_trip [] (mkTimeLakeConfig "date" "S3Store" "Prep" "u1" "lake" 7)
    "fid" rfl (by simp)

/-- C9: `create_catalog` is a silent no-op when a catalog table already exists
at the path, leaving it unchanged; `open_catalog` fails with a not-found error
when none exists. -/
theorem create_catalog_noop_open_catalog_notfound :
    (∀ c : Catalog, create_catalog (some c) = some c) ∧
    open_catalog none = .error "No catalog found" :=
  ⟨fun _ => rfl, rfl⟩

/-- C5: deleting a stored id returns `true` and a subsequent `get_entry`
returns `none`; deleting an id not present returns `false` and leaves the
catalog entirely unchanged. -/
theorem delete_entry_spec :
    (∀ (c : Catalog) (i : String), (∃ r ∈ c, r.id = i) →
      (delete_entry c i).1 = true ∧ get_entry (delete_entry c i).2 i = none) ∧
    (∀ (c : Catalog) (i : String), (∀ r ∈ c, r.id ≠ i) →
      delete_entry c i = (false, c)) := by
  constructor
  · intro c i hex
    have hlt : ((c : List CatalogRow).filter (fun r => !(r.id == i))).length <
        (c : List CatalogRow).length := by
      rw [List.length_filter_lt_length_iff_exists]
      obtain ⟨r, hr, he⟩ := hex
      exact ⟨r, hr, by simp [he]⟩
    have hne : ((c : List CatalogRow).filter (fun r => !(r.id == i))).length ≠
        (c : List CatalogRow).length := Nat.ne_of_lt hlt
    constructor
    · simp only [delete_entry, if_neg hne]
    · simp only [delete_entry, if_neg hne]
      rw [get_entry_eq_head, List.filter_filter]
      have hnil : (c : List CatalogRow).filter
          (fun r => (r.id == i) && !(r.id == i)) = [] :=
        List.filter_eq_nil_iff.mpr (by intro r hr; simp)
      rw [hnil]
      rfl
  · intro c i h
    have hself : (c : List CatalogRow).filter (fun r => !(r.id == i)) = c :=
      List.filter_eq_self.mpr (by intro r hr; simpa using h r hr)
    simp [delete_entry, hself]

/-- Witness for C5: deleting the only row, and deleting an unknown id. -/
theorem delete_entry_spec_witness :
    ((delete_entry [⟨"a", "n", "t", 0, 0, []⟩] "a").1 = true ∧
      get_entry (delete_entry [⟨"a", "n", "t", 0, 0, []⟩] "a").2 "a" = none) ∧
    delete_entry [⟨"a", "n", "t", 0, 0, []⟩] "b" = (false, [⟨"a", "n", "t", 0, 0, []⟩]) :=
  ⟨delete_entry_spec.1 [⟨"a", "n", "t", 0, 0, []⟩] "a" ⟨⟨"a", "n", "t", 0, 0, []⟩, by simp, rfl⟩,
    delete_entry_spec.2 [⟨"a", "n", "t", 0, 0, []⟩] "b" (by simp)⟩

/-- C7 counterexample: `create_dataset` called without partition columns (as
its signature permits) produces a `DatasetEntry` whose `partition_columns` is
the empty list, so the partition columns are not a non-empty duplicate-free
subset of the supplied table's columns. -/
theorem create_dataset_partition_counterexample :
    ¬ (∃ l : List String,
        pLookup ((create_dataset [] "ds" "/p" ["date", "value"] ["datetime", "float"]
            none none "fid" 0).1).payload "partition_columns" = some (.vList l) ∧
        l ≠ [] ∧ l.Nodup ∧ l ⊆ ["date", "value"]) := by
  rintro ⟨l, hl, hne, -, -⟩
  have h0 : (some (Value.vList ([] : List String)) : Option Value) = some (.vList l) := hl
  simp only [Option.some.injEq, Value.vList.injEq] at h0
  exact hne h0.symm

/-- C7 amended: the `partition_columns` of the entry produced by
`create_dataset` are exactly the caller-supplied list (no validation is done;
an omitted list yields `[]`), so they are a non-empty duplicate-free subset of
the supplied table's columns precisely when the caller's list is. -/
theorem create_dataset_partition_columns_amended (c : Catalog) (name path : String)
    (cols types pcs : List String) (pk : Option String) (fid : String) (now : Nat)
    (hne : pcs ≠ []) (hnd : pcs.Nodup) (hsub : pcs ⊆ cols) :
    pLookup ((create_dataset c name path cols types (some pcs) pk fid now).1).payload
        "partition_columns" = some (.vList pcs) ∧
    pcs ≠ [] ∧ pcs.Nodup ∧ pcs ⊆ cols :=
  ⟨rfl, hne, hnd, hsub⟩

/-- Witness for the amended C7 at a concrete valid partition list. -/
theorem create_dataset_partition_columns_amended_witness :
    pLookup ((create_dataset [] "ds" "/p" ["date", "value"] ["datetime", "float"]
        (some ["date"]) none "fid" 0).1).payload "partition_columns" =
      some (.vList ["date"]) ∧
    (["date"] : List String) ≠ [] ∧ (["date"] : List String).Nodup ∧
    (["date"] : List String) ⊆ ["date", "value"] :=
  create_dataset_partition_columns_amended [] "ds" "/p" ["date", "value"]
    ["datetime", "float"] ["date"] none "fid" 0 (by simp) (by simp) (by simp)

/-- C8: `resolve_partitions` always places the derived day-partition column
first, followed by the user-supplied partition columns not already present,
order-preserved and de-duplicated (`dedupKeep` is that description written
directly from the spec); in particular `resolve_partitions ts []` is just the
derived day column, and `resolve_partitions ts ["a", "a"]` contains a single
`"a"`.  Spec-modelled: `resolve_partitions` itself is absent from `src/`. -/
theorem resolve_partitions_spec (ts : String) (user : List String) :
    resolve_partitions ts user =
      get_timestamp_partition_column ts ::
        dedupKeep [get_timestamp_partition_column ts] user ∧
    resolve_partitions ts [] = [get_timestamp_partition_column ts] ∧
    (resolve_partitions ts ["a", "a"]).count "a" = 1 := by
  have hne : get_timestamp_partition_column ts ≠ "a" := by
    intro h
    have hlen := congrArg String.length h
    rw [get_timestamp_partition_column, String.length_append] at hlen
    have h4 : "_day".length = 4 := rfl
    have h1 : "a".length = 1 := rfl
    rw [h4, h1] at hlen
    omega
  have hne' : "a" ≠ get_timestamp_partition_column ts := Ne.symm hne
  refine ⟨?_, rfl, ?_⟩
  · unfold resolve_partitions get_default_partitions
    rw [foldl_dedup_eq]
    rfl
  · unfold resolve_partitions get_default_partitions
    rw [foldl_dedup_eq]
    have hd : dedupKeep [get_timestamp_partition_column ts] ["a", "a"] = ["a"] := by
      simp [dedupKeep, hne, hne']
    rw [hd]
    simp [List.count_cons, hne, hne']

/-- C10: a stored row whose `entry_type` is outside the known set
{`timelake_config`, `dataset`} is parsed via the `BaseCatalogEntry` fallback of
`ENTRY_TYPE_TO_MODEL.get`, so `get_entry`, `get_entry_by_name` and
`list_entries` never raise on such rows (stored rows never bind a core key in
their properties column, which the hypothesis records). -/
theorem unknown_entry_type_reads_tolerant (c : Catalog)
    (h : ∀ r ∈ c, r.entry_type ∉ knownEntryTypes ∧ noKeys r.properties coreKeys = true) :
    (∀ eid m, get_entry c eid ≠ some (.error m)) ∧
    (∀ n t m, get_entry_by_name c n t ≠ some (.error m)) ∧
    (∀ t : Option String, ∃ l, list_entries c t = .ok l) := by
  have hok : ∀ r ∈ c, ∃ e, parse_entry r = .ok e := fun r hr =>
    ⟨_, parse_entry_unknown_type r (h r hr).1 (h r hr).2⟩
  refine ⟨?_, ?_, ?_⟩
  · intro eid m hcontra
    rw [get_entry_eq_head] at hcontra
    obtain ⟨r, hhead, hparse⟩ := Option.map_eq_some'.mp hcontra
    have hr : r ∈ c := List.mem_of_mem_filter (head?_mem hhead)
    obtain ⟨e, he⟩ := hok r hr
    rw [he] at hparse
    exact absurd hparse (by simp)
  · intro n t m hcontra
    rw [get_entry_by_name_eq_head] at hcontra
    obtain ⟨r, hhead, hparse⟩ := Option.map_eq_some'.mp hcontra
    have hr : r ∈ c := List.mem_of_mem_filter (head?_mem hhead)
    obtain ⟨e, he⟩ := hok r hr
    rw [he] at hparse
    exact absurd hparse (by simp)
  · intro t
    match t with
    | none => exact parseAll_ok_of_all hok
    | some s =>
      by_cases hs : s = ""
      · subst hs
        exact parseAll_ok_of_all hok
      · obtain ⟨l, hl⟩ := parseAll_ok_of_all
          (fun r hr => hok r (List.mem_of_mem_filter hr))
        refine ⟨l, ?_⟩
        simp only [list_entries, if_neg hs]
        exact hl

/-- Witness for C10: a one-row catalog with an unrecognized discriminator. -/
theorem unknown_entry_type_reads_tolerant_witness :
    (∀ eid m, get_entry [⟨"i", "n", "other", 0, 0, [("x", .vStr "y")]⟩] eid ≠
      some (.error m)) ∧
    (∀ n t m, get_entry_by_name [⟨"i", "n", "other", 0, 0, [("x", .vStr "y")]⟩] n t ≠
      some (.error m)) ∧
    (∀ t : Option String, ∃ l,
      list_entries [⟨"i", "n", "other", 0, 0, [("x", .vStr "y")]⟩] t = .ok l) :=
  unknown_entry_type_reads_tolerant [⟨"i", "n", "other", 0, 0, [("x", .vStr "y")]⟩]
    (by intro r hr; simp only [List.mem_singleton] at hr; subst hr; exact ⟨by simp [knownEntryTypes], rfl⟩)

/-- Dropping the core keys from merged entry data does not change the lookup
of a non-core key. -/
theorem pLookup_payloadOf (data : Props) (k : String)
    (hk : coreKeys.contains k = false) :
    pLookup (payloadOf data) k = pLookup data k := by
  unfold payloadOf
  induction data with
  | nil => rfl
  | cons kv rest ih =>
    obtain ⟨k0, w⟩ := kv
    rw [List.filter_cons]
    by_cases hkv : k0 = k
    · have hpred : (!(coreKeys.contains (k0, w).1)) = true := by
        simp only [hkv, hk]
        rfl
      rw [if_pos hpred]
      simp only [pLookup, if_pos hkv]
    · by_cases hpred : (!(coreKeys.contains (k0, w).1)) = true
      · rw [if_pos hpred]
        simp only [pLookup, if_neg hkv]
        exact ih
      · rw [if_neg hpred]
        simp only [pLookup, if_neg hkv]
        exact ih

/-- Filling a declared default does not change the lookup of a present key. -/
theorem pLookup_fillDefault_some {p : Props} {k : String} {v : Value}
    (k0 : String) (v0 : Value) (h : pLookup p k = some v) :
    pLookup (fillDefault p k0 v0) k = some v := by
  unfold fillDefault
  by_cases hp : (pLookup p k0).isSome = true
  · rw [if_pos hp]
    exact h
  · rw [if_neg hp, pLookup_append, h]

/-- Inversion of a successful model reconstruction: every key present in the
stripped payload of the merged data keeps its value in the model's payload
(default filling only adds absent keys), and the model's `name` is the
merged data's `name` when that is a string (the `{**core, **properties}`
construction lets a stored `name` property override the row's column). -/
theorem mkModel_ok_inv {t : String} {data : Props} {e : BaseCatalogEntry}
    (h : mkModel t data = .ok e) :
    (∀ k v, pLookup (payloadOf data) k = some v → pLookup e.payload k = some v) ∧
    (∀ s, pLookup data "name" = some (.vStr s) → e.name = s) := by
  unfold mkModel at h
  cases hid : extractId data with
  | error m => rw [hid] at h; exact absurd h (by simp [bind, Except.bind])
  | ok i =>
  rw [hid] at h
  cases hca : extractNat data "created_at" with
  | error m => rw [hca] at h; exact absurd h (by simp [bind, Except.bind])
  | ok ca =>
  rw [hca] at h
  cases hua : extractNat data "updated_at" with
  | error m => rw [hua] at h; exact absurd h (by simp [bind, Except.bind])
  | ok ua =>
  rw [hua] at h
  simp only [bind, Except.bind] at h
  by_cases ht : t = "timelake_config"
  · rw [if_pos ht] at h
    cases hn : pLookup data "name" with
    | none =>
      rw [hn] at h
      simp only [bind, Except.bind] at h
      by_cases hval : validTimeLakePayload (payloadOf data) = true
      · rw [if_pos hval] at h
        have he : (⟨i, "timelake", "timelake_config", ca, ua,
            timeLakeDefaults (payloadOf data)⟩ : BaseCatalogEntry) = e := by
          simpa using h
        subst he
        constructor
        · intro k v hk
          exact pLookup_fillDefault_some _ _ (pLookup_fillDefault_some _ _
            (pLookup_fillDefault_some _ _ hk))
        · intro s hs
          exact absurd hs (by simp)
      · rw [if_neg hval] at h
        exact absurd h (by simp)
    | some w =>
      rw [hn] at h
      cases w with
      | vStr s0 =>
        simp only [bind, Except.bind] at h
        by_cases hval : validTimeLakePayload (payloadOf data) = true
        · rw [if_pos hval] at h
          have he : (⟨i, s0, "timelake_config", ca, ua,
              timeLakeDefaults (payloadOf data)⟩ : BaseCatalogEntry) = e := by
            simpa using h
          subst he
          constructor
          · intro k v hk
            exact pLookup_fillDefault_some _ _ (pLookup_fillDefault_some _ _
              (pLookup_fillDefault_some _ _ hk))
          · intro s hs
            simp only [Option.some.injEq, Value.vStr.injEq] at hs
            exact hs
        · rw [if_neg hval] at h
          exact absurd h (by simp)
      | vNat n0 => simp [bind, Except.bind] at h
      | vList l0 => simp [bind, Except.bind] at h
      | vMap m0 => simp [bind, Except.bind] at h
      | vNull => simp [bind, Except.bind] at h
  · rw [if_neg ht] at h
    by_cases hd : t = "dataset"
    · rw [if_pos hd] at h
      cases hns : extractStr data "name" with
      | error m => rw [hns] at h; exact absurd h (by simp [bind, Except.bind])
      | ok n =>
      rw [hns] at h
      simp only [bind, Except.bind] at h
      by_cases hval : validDatasetPayload (payloadOf data) = true
      · rw [if_pos hval] at h
        have he : (⟨i, n, "dataset", ca, ua,
            datasetDefaults (payloadOf data)⟩ : BaseCatalogEntry) = e := by
          simpa using h
        subst he
        constructor
        · intro k v hk
          exact pLookup_fillDefault_some _ _ (pLookup_fillDefault_some _ _
            (pLookup_fillDefault_some _ _ hk))
        · intro s hs
          have h2 : extractStr data "name" = .ok s := by
            unfold extractStr
            rw [hs]
          rw [hns] at h2
          simp only [Except.ok.injEq] at h2
          exact h2
      · rw [if_neg hval] at h
        exact absurd h (by simp)
    · rw [if_neg hd] at h
      cases hns : extractStr data "name" with
      | error m => rw [hns] at h; exact absurd h (by simp [bind, Except.bind])
      | ok n =>
      rw [hns] at h
      cases het : extractStr data "entry_type" with
      | error m => rw [het] at h; exact absurd h (by simp [bind, Except.bind])
      | ok et =>
      rw [het] at h
      simp only [bind, Except.bind] at h
      have he : (⟨i, n, et, ca, ua, payloadOf data⟩ : BaseCatalogEntry) = e := by
        simpa using h
      subst he
      constructor
      · intro k v hk
        exact hk
      · intro s hs
        have h2 : extractStr data "name" = .ok s := by
          unfold extractStr
          rw [hs]
        rw [hns] at h2
        simp only [Except.ok.injEq] at h2
        exact h2

/-- Function `get_entry` finds the first row whose id matches. -/
theorem get_entry_found (c₁ c₂ : Catalog) (row : CatalogRow) (i : String)
    (hrow : row.id = i) (hfresh : ∀ r ∈ c₁, r.id ≠ i) :
    get_entry (c₁ ++ row :: c₂) i = some (parse_entry row) := by
  rw [get_entry_eq_head, List.filter_append, filter_id_eq_nil hfresh]
  simp [List.filter_cons, hrow]

/-- C4 counterexample: updating a single payload field of a stored entry also
changes the entry's `updated_at` (the merge writes `updated_at := now`), so
the claim that every field other than the updated one is unchanged fails at
this concrete input. -/
theorem update_entry_changes_updated_at_counterexample :
    get_entry [⟨"e1", "n", "x", 0, 0, [("field", .vStr "old")]⟩] "e1" =
      some (.ok ⟨some "e1", "n", "x", 0, 0, [("field", .vStr "old")]⟩) ∧
    update_entry [⟨"e1", "n", "x", 0, 0, [("field", .vStr "old")]⟩] "e1"
        [("field", .vStr "v")] 5 =
      .ok (true, [⟨"e1", "n", "x", 0, 5, [("field", .vStr "v")]⟩]) ∧
    get_entry [⟨"e1", "n", "x", 0, 5, [("field", .vStr "v")]⟩] "e1" =
      some (.ok ⟨some "e1", "n", "x", 0, 5, [("field", .vStr "v")]⟩) ∧
    (5 : Nat) ≠ 0 :=
  ⟨rfl, rfl, rfl, by decide⟩

/-- C4 amended: for every entry currently stored under id `i` (its row being
the first id-match and parseable) and every single-field map `{k: v}`,
`update_entry(i, {k: v})` returns `true` and rewrites exactly the matched
rows, setting `updated_at` to the update time and the properties column to the
stored payload with `k` bound to `v` and every other property unchanged; a
subsequent `get_entry(i)` returns the re-parse of that updated row, which,
whenever it succeeds, yields an entry reflecting `v` for the field — for a
non-core field directly in its payload, and for the core field `name` through
the properties-over-core merge — but which raises when `v` is inadmissible for
the entry variant's declared field type, even though `update_entry` already
returned `true`; `update_entry` on an id not present returns `false` and
leaves the catalog unchanged. -/
theorem update_entry_amended :
    (∀ (c₁ c₂ : Catalog) (r : CatalogRow) (i k : String) (v : Value) (now : Nat)
        (cur : BaseCatalogEntry),
      r.id = i → (∀ x ∈ c₁, x.id ≠ i) → parse_entry r = .ok cur →
      update_entry (c₁ ++ r :: c₂) i [(k, v)] now = .ok (true,
        ((c₁ ++ r :: c₂ : List CatalogRow).map
          (fun x => if x.id = i
            then { x with updated_at := now, properties := dictUpdate cur.payload [(k, v)] }
            else x))) ∧
      get_entry ((c₁ ++ r :: c₂ : List CatalogRow).map
          (fun x => if x.id = i
            then { x with updated_at := now, properties := dictUpdate cur.payload [(k, v)] }
            else x)) i =
        some (parse_entry
          { r with updated_at := now, properties := dictUpdate cur.payload [(k, v)] }) ∧
      pLookup (dictUpdate cur.payload [(k, v)]) k = some v ∧
      (∀ k', k' ≠ k → pLookup (dictUpdate cur.payload [(k, v)]) k' = pLookup cur.payload k')) ∧
    (∀ (row : CatalogRow) (e' : BaseCatalogEntry) (k : String) (v : Value),
      parse_entry row = .ok e' → coreKeys.contains k = false →
      pLookup row.properties k = some v → pLookup e'.payload k = some v) ∧
    (∀ (row : CatalogRow) (e' : BaseCatalogEntry) (s : String),
      parse_entry row = .ok e' → pLookup row.properties "name" = some (.vStr s) →
      e'.name = s) ∧
    (∀ (c : Catalog) (j : String) (props : Props) (now : Nat),
      (∀ x ∈ c, x.id ≠ j) → update_entry c j props now = .ok (false, c)) := by
  refine ⟨?_, ?_, ?_, ?_⟩
  · intro c₁ c₂ r i k v now cur hid hfresh hcur
    have hget : get_entry (c₁ ++ r :: c₂) i = some (.ok cur) := by
      rw [get_entry_found c₁ c₂ r i hid hfresh, hcur]
    refine ⟨?_, ?_, pLookup_dictUpdate_self cur.payload k v,
      fun k' hk' => pLookup_dictUpdate_ne cur.payload k k' v hk'⟩
    · unfold update_entry
      rw [hget]
    · have hmapfresh : ∀ x ∈ (c₁ : List CatalogRow).map
          (fun x => if x.id = i
            then { x with updated_at := now, properties := dictUpdate cur.payload [(k, v)] }
            else x), x.id ≠ i := by
        intro x hx
        obtain ⟨x0, hx0, hxe⟩ := List.mem_map.mp hx
        have hxid : x.id = x0.id := by
          subst hxe
          by_cases h0 : x0.id = i
          · rw [if_pos h0]
          · rw [if_neg h0]
        rw [hxid]
        exact hfresh x0 hx0
      have hfrow : (if r.id = i
          then { r with updated_at := now, properties := dictUpdate cur.payload [(k, v)] }
          else r) =
          { r with updated_at := now, properties := dictUpdate cur.payload [(k, v)] } :=
        if_pos hid
      rw [List.map_append, List.map_cons, hfrow]
      exact get_entry_found _ _ _ i hid hmapfresh
  · intro row e' k v hparse hk hprop
    unfold parse_entry at hparse
    refine (mkModel_ok_inv hparse).1 k v ?_
    rw [pLookup_payloadOf _ _ hk, pLookup_dictUpdate, hprop]
  · intro row e' s hparse hprop
    unfold parse_entry at hparse
    refine (mkModel_ok_inv hparse).2 s ?_
    rw [pLookup_dictUpdate, hprop]
  · intro c j props now h
    have hnone : get_entry c j = none := by
      rw [get_entry_eq_head, filter_id_eq_nil h]
      rfl
    unfold update_entry
    rw [hnone]

/-- Witness for the amended C4: a single-row catalog updated at a non-core
field, the re-parse of the updated row, the name-override case of the
repository's own update test, and an unknown id. -/
theorem update_entry_amended_witness :
    (update_entry [⟨"e1", "n", "x", 0, 0, [("field", .vStr "old")]⟩] "e1"
        [("field", .vStr "v")] 5 =
      .ok (true, [⟨"e1", "n", "x", 0, 5, [("field", .vStr "v")]⟩]) ∧
      get_entry [⟨"e1", "n", "x", 0, 5, [("field", .vStr "v")]⟩] "e1" =
        some (.ok ⟨some "e1", "n", "x", 0, 5, [("field", .vStr "v")]⟩) ∧
      pLookup (dictUpdate [("field", .vStr "old")] [("field", .vStr "v")]) "field" =
        some (.vStr "v") ∧
      (∀ k', k' ≠ "field" →
        pLookup (dictUpdate [("field", .vStr "old")] [("field", .vStr "v")]) k' =
          pLookup [("field", .vStr "old")] k')) ∧
    pLookup (⟨some "e1", "n", "x", 0, 5, [("field", .vStr "v")]⟩ :
      BaseCatalogEntry).payload "field" = some (.vStr "v") ∧
    (⟨some "e1", "Updated", "x", 0, 5, []⟩ : BaseCatalogEntry).name = "Updated" ∧
    update_entry [] "j" [] 0 = .ok (false, []) :=
  ⟨update_entry_amended.1 [] [] ⟨"e1", "n", "x", 0, 0, [("field", .vStr "old")]⟩
      "e1" "field" (.vStr "v") 5 ⟨some "e1", "n", "x", 0, 0, [("field", .vStr "old")]⟩
      rfl (by simp) rfl,
    update_entry_amended.2.1 ⟨"e1", "n", "x", 0, 5, [("field", .vStr "v")]⟩
      ⟨some "e1", "n", "x", 0, 5, [("field", .vStr "v")]⟩ "field" (.vStr "v")
      rfl rfl rfl,
    update_entry_amended.2.2.1 ⟨"e1", "Original", "x", 0, 5, [("name", .vStr "Updated")]⟩
      ⟨some "e1", "Updated", "x", 0, 5, []⟩ "Updated" rfl rfl,
    update_entry_amended.2.2.2 [] "j" [] 0 (by simp)⟩

/-- C6: `get_or_create_timelake_config` returns the first existing config
entry when one is present and adds a new one only when none exists: after any
successful call, a repeat call (with any parameters) returns the same id,
configuration and catalog state, and the number of stored config entries is
`max 1` of what it was — so the operation never produces a second ConfigEntry
and every call after the first returns the same configuration. -/
theorem get_or_create_config_idempotent
    (c : Catalog) (ts sn pn uu fi ln ts2 sn2 pn2 uu2 fi2 ln2 : String) (now now2 : Nat)
    (i : Option String) (e : BaseCatalogEntry) (c₁ : Catalog)
    (h : get_or_create_timelake_config c ts sn pn uu fi ln now = .ok (i, e, c₁)) :
    get_or_create_timelake_config c₁ ts2 sn2 pn2 uu2 fi2 ln2 now2 = .ok (i, e, c₁) ∧
    configCount c₁ = max 1 (configCount c) := by
  have hlist : ∀ c' : Catalog, list_entries c' (some "timelake_config") =
      parseAll ((c' : List CatalogRow).filter
        (fun r => r.entry_type == "timelake_config")) := fun _ => rfl
  unfold get_or_create_timelake_config at h
  rw [hlist] at h
  cases hp : parseAll ((c : List CatalogRow).filter
      (fun r => r.entry_type == "timelake_config")) with
  | error m =>
    rw [hp] at h
    exact absurd h (by simp [bind, Except.bind])
  | ok configs =>
    rw [hp] at h
    cases configs with
    | nil =>
      have hF : (c : List CatalogRow).filter
          (fun r => r.entry_type == "timelake_config") = [] := parseAll_ok_nil hp
      simp only [bind, Except.bind, Except.ok.injEq, Prod.mk.injEq] at h
      obtain ⟨hi, he, hc⟩ := h
      subst hc
      subst he
      subst hi
      have hparse : parse_entry (rowOfEntry (mkTimeLakeConfig ts sn pn uu ln now) fi) =
          .ok { mkTimeLakeConfig ts sn pn uu ln now with id := some fi } :=
        parse_rowOfEntry (mkTimeLakeConfig ts sn pn uu ln now) fi rfl
      have hfilter : (((add_entry c (mkTimeLakeConfig ts sn pn uu ln now) fi).2 :
          List CatalogRow)).filter (fun r => r.entry_type == "timelake_config") =
          [rowOfEntry (mkTimeLakeConfig ts sn pn uu ln now) fi] := by
        show ((c ++ [rowOfEntry (mkTimeLakeConfig ts sn pn uu ln now) fi] :
          List CatalogRow)).filter (fun r => r.entry_type == "timelake_config") = _
        rw [List.filter_append, hF]
        rfl
      constructor
      · unfold get_or_create_timelake_config
        rw [hlist, hfilter]
        simp only [parseAll, hparse, bind, Except.bind]
        rfl
      · unfold configCount
        rw [hfilter, hF]
        rfl
    | cons e₀ es =>
      obtain ⟨r, rs, hF, -, -⟩ := parseAll_ok_cons hp
      simp only [bind, Except.bind, Except.ok.injEq, Prod.mk.injEq] at h
      obtain ⟨hi, he, hc⟩ := h
      subst hc
      subst he
      subst hi
      constructor
      · unfold get_or_create_timelake_config
        rw [hlist, hp]
        simp [bind, Except.bind]
      · unfold configCount
        rw [hF]
        simp only [List.length_cons]
        omega

/-- Witness for C6: starting from the empty catalog, the first call creates
the config and the second call returns it unchanged. -/
theorem get_or_create_config_idempotent_witness :
    get_or_create_timelake_config
        [rowOfEntry (mkTimeLakeConfig "date" "S" "P" "u" "lake" 7) "i"]
        "x" "Y" "Z" "u2" "i2" "lake2" 9 =
      .ok (some "i", { mkTimeLakeConfig "date" "S" "P" "u" "lake" 7 with id := some "i" },
        [rowOfEntry (mkTimeLakeConfig "date" "S" "P" "u" "lake" 7) "i"]) ∧
    configCount [rowOfEntry (mkTimeLakeConfig "date" "S" "P" "u" "lake" 7) "i"] =
      max 1 (configCount []) :=
  get_or_create_config_idempotent [] "date" "S" "P" "u" "i" "lake" "x" "Y" "Z" "u2" "i2"
    "lake2" 7 9 (some "i")
    { mkTimeLakeConfig "date" "S" "P" "u" "lake" 7 with id := some "i" }
    [rowOfEntry (mkTimeLakeConfig "date" "S" "P" "u" "lake" 7) "i"] rfl

/-- C2: `read` with both bounds resolves the dataset, opens its physical table
and applies the inclusive range filter `[start_date, end_date]` on the derived
day-partition column (`timestamp_partition_column`, not the raw timestamp
column): it returns exactly the stored rows whose day-partition value lies in
the inclusive range and no row outside it.  Spec-modelled: this `read` is
absent from `src/` (only its tests are there). -/
theorem read_filters_day_partition (lake : TimeLake) (dataset s e : String)
    (entry : BaseCatalogEntry) (p : String) (rows : List TableRow)
    (h1 : get_entry_by_name lake.catalog dataset "dataset" = some (.ok entry))
    (h2 : pLookup entry.payload "path" = some (.vStr p))
    (h3 : tableAt lake.tables p = some rows) :
    lake.read dataset (some s) (some e) =
      .ok (rows.filter (inDayRange lake.timestamp_partition_column (some s) (some e))) ∧
    ∀ r, r ∈ rows.filter (inDayRange lake.timestamp_partition_column (some s) (some e)) ↔
      (r ∈ rows ∧ ∃ d, cellLookup r lake.timestamp_partition_column = some d ∧
        s ≤ d ∧ d ≤ e) := by
  constructor
  · simp only [TimeLake.read, h1, h2, h3, bind, Except.bind]
  · intro r
    rw [List.mem_filter]
    constructor
    · rintro ⟨hr, hb⟩
      refine ⟨hr, ?_⟩
      unfold inDayRange at hb
      cases hc : cellLookup r lake.timestamp_partition_column with
      | none => rw [hc] at hb; exact absurd hb (by simp)
      | some d =>
        rw [hc] at hb
        simp only [Bool.and_eq_true, decide_eq_true_eq] at hb
        exact ⟨d, rfl, hb.1, hb.2⟩
    · rintro ⟨hr, d, hd, hs, he⟩
      refine ⟨hr, ?_⟩
      unfold inDayRange
      rw [hd]
      simp [hs, he]

/-- C3: `upsert` on an existing dataset merges the source table into the
dataset's physical table keyed on timestamp-column equality only: a target row
whose timestamp equals some source row's timestamp is fully overwritten in
place by that source row, a source row with no matching target timestamp is
inserted, and a target row with no matching source timestamp is left
unchanged.  The injectivity hypothesis records that source timestamps are
distinct (duplicate source timestamps are an open question in the spec).
Spec-modelled: this `upsert` is absent from `src/` (only its tests are). -/
theorem upsert_merges_by_timestamp (lake : TimeLake) (dataset : String)
    (source : List TableRow) (entry : BaseCatalogEntry) (p : String)
    (target : List TableRow)
    (h1 : get_entry_by_name lake.catalog dataset "dataset" = some (.ok entry))
    (h2 : pLookup entry.payload "path" = some (.vStr p))
    (h3 : tableAt lake.tables p = some target)
    (hinj : ∀ s ∈ source, ∀ s' ∈ source,
      cellLookup s lake.timestamp_column = cellLookup s' lake.timestamp_column →
      s = s') :
    lake.upsert source dataset = .ok
      { lake with
        tables := setTableAt lake.tables p (mergeByTimestamp lake.timestamp_column target source) } ∧
    (∀ (i : Nat) (t : TableRow), target[i]? = some t →
      (∀ s ∈ source,
        cellLookup s lake.timestamp_column ≠ cellLookup t lake.timestamp_column) →
      (mergeByTimestamp lake.timestamp_column target source)[i]? = some t) ∧
    (∀ (i : Nat) (t : TableRow), target[i]? = some t → ∀ s ∈ source,
      cellLookup s lake.timestamp_column = cellLookup t lake.timestamp_column →
      (mergeByTimestamp lake.timestamp_column target source)[i]? = some s) ∧
    (∀ s ∈ source,
      (∀ t ∈ target,
        cellLookup t lake.timestamp_column ≠ cellLookup s lake.timestamp_column) →
      s ∈ mergeByTimestamp lake.timestamp_column target source) := by
  have hproj : ∀ (i : Nat) (t : TableRow), target[i]? = some t →
      (mergeByTimestamp lake.timestamp_column target source)[i]? =
      some (match source.find?
          (fun s => cellLookup s lake.timestamp_column ==
            cellLookup t lake.timestamp_column) with
        | some s => s
        | none => t) := by
    intro i t hit
    have hi : i < target.length := by
      by_contra hge
      push_neg at hge
      rw [List.getElem?_eq_none hge] at hit
      exact absurd hit (by simp)
    unfold mergeByTimestamp
    rw [List.getElem?_append, List.length_map, if_pos hi, List.getElem?_map, hit]
    rfl
  refine ⟨?_, ?_, ?_, ?_⟩
  · simp only [TimeLake.upsert, h1, h2, h3, bind, Except.bind]
  · intro i t hit hne
    rw [hproj i t hit]
    have hfind : source.find?
        (fun s => cellLookup s lake.timestamp_column ==
          cellLookup t lake.timestamp_column) = none :=
      List.find?_eq_none.mpr (fun s hs => by simpa using hne s hs)
    rw [hfind]
  · intro i t hit s hs hts
    rw [hproj i t hit]
    cases hfind : source.find?
        (fun x => cellLookup x lake.timestamp_column ==
          cellLookup t lake.timestamp_column) with
    | none =>
      exact absurd (by simpa using hts)
        (by simpa using List.find?_eq_none.mp hfind s hs)
    | some s'' =>
      have hmem := List.mem_of_find?_eq_some hfind
      have hpred := List.find?_some hfind
      have heq : cellLookup s'' lake.timestamp_column =
          cellLookup t lake.timestamp_column := by simpa using hpred
      rw [hinj s'' hmem s hs (heq.trans hts.symm)]
  · intro s hs hne
    unfold mergeByTimestamp
    refine List.mem_append_right _ (List.mem_filter.mpr ⟨hs, ?_⟩)
    have hany : (target.any (fun t => cellLookup t lake.timestamp_column ==
        cellLookup s lake.timestamp_column)) = false :=
      List.any_eq_false.mpr (fun t ht => by simpa using hne t ht)
    simp [hany]

/-- Witness for C2: a two-row table spanning two months read back with the
inclusive January range. -/
theorem read_filters_day_partition_witness :
    (TimeLake.mk
        (create_dataset [] "ds" "/p" ["date", "value"] ["dt", "f"]
          (some ["date_day"]) none "fid" 0).2
        [("/p", [[("date", "2023-01-01T00:00:00"), ("date_day", "2023-01-01")],
                 [("date", "2023-02-05T00:00:00"), ("date_day", "2023-02-05")]])]
        "date" "date_day").read "ds" (some "2023-01-01") (some "2023-01-31") =
      .ok ([[("date", "2023-01-01T00:00:00"), ("date_day", "2023-01-01")],
            [("date", "2023-02-05T00:00:00"), ("date_day", "2023-02-05")]].filter
        (inDayRange "date_day" (some "2023-01-01") (some "2023-01-31"))) :=
  (read_filters_day_partition
    (TimeLake.mk
      (create_dataset [] "ds" "/p" ["date", "value"] ["dt", "f"]
        (some ["date_day"]) none "fid" 0).2
      [("/p", [[("date", "2023-01-01T00:00:00"), ("date_day", "2023-01-01")],
               [("date", "2023-02-05T00:00:00"), ("date_day", "2023-02-05")]])]
      "date" "date_day")
    "ds" "2023-01-01" "2023-01-31"
    (create_dataset [] "ds" "/p" ["date", "value"] ["dt", "f"]
      (some ["date_day"]) none "fid" 0).1
    "/p"
    [[("date", "2023-01-01T00:00:00"), ("date_day", "2023-01-01")],
     [("date", "2023-02-05T00:00:00"), ("date_day", "2023-02-05")]]
    rfl rfl rfl).1

/-- Witness for C3: upserting a table with one overlapping and one new
timestamp into a two-row dataset. -/
theorem upsert_merges_by_timestamp_witness :
    (TimeLake.mk
        (create_dataset [] "ds" "/p" ["date", "value"] ["dt", "f"]
          (some ["date_day"]) none "fid" 0).2
        [("/p", [[("date", "2023-01-01T00:00:00"), ("date_day", "2023-01-01")],
                 [("date", "2023-02-05T00:00:00"), ("date_day", "2023-02-05")]])]
        "date" "date_day").upsert
      [[("date", "2023-01-01T00:00:00"), ("value", "9")],
       [("date", "2023-03-01T00:00:00"), ("value", "8")]] "ds" =
      .ok (TimeLake.mk
        (create_dataset [] "ds" "/p" ["date", "value"] ["dt", "f"]
          (some ["date_day"]) none "fid" 0).2
        (setTableAt
          [("/p", [[("date", "2023-01-01T00:00:00"), ("date_day", "2023-01-01")],
                   [("date", "2023-02-05T00:00:00"), ("date_day", "2023-02-05")]])]
          "/p"
          (mergeByTimestamp "date"
            [[("date", "2023-01-01T00:00:00"), ("date_day", "2023-01-01")],
             [("date", "2023-02-05T00:00:00"), ("date_day", "2023-02-05")]]
            [[("date", "2023-01-01T00:00:00"), ("value", "9")],
             [("date", "2023-03-01T00:00:00"), ("value", "8")]]))
        "date" "date_day") :=
  (upsert_merges_by_timestamp
    (TimeLake.mk
      (create_dataset [] "ds" "/p" ["date", "value"] ["dt", "f"]
        (some ["date_day"]) none "fid" 0).2
      [("/p", [[("date", "2023-01-01T00:00:00"), ("date_day", "2023-01-01")],
               [("date", "2023-02-05T00:00:00"), ("date_day", "2023-02-05")]])]
      "date" "date_day")
    "ds"
    [[("date", "2023-01-01T00:00:00"), ("value", "9")],
     [("date", "2023-03-01T00:00:00"), ("value", "8")]]
    (create_dataset [] "ds" "/p" ["date", "value"] ["dt", "f"]
      (some ["date_day"]) none "fid" 0).1
    "/p"
    [[("date", "2023-01-01T00:00:00"), ("date_day", "2023-01-01")],
     [("date", "2023-02-05T00:00:00"), ("date_day", "2023-02-05")]]
    rfl rfl rfl (by decide)).1

end Timelake
